import Mathlib

/-!
# Verification of the yt-agents workflow and video-storage core

Shallow embedding of the workflow step state machine of `src/app.py`
(routes `start_workflow`, `workflow_step`, `approve_step`, `reject_step`,
`final_upload`) and of the storage backends
`src/utils/video_storage.py` (class `VideoStorage`, selector
`get_video_storage`), `src/utils/sqlite_storage.py` (class
`SQLiteStorage`), `src/utils/s3_storage.py` (class `S3PostgresStorage`)
and `src/utils/supabase_storage.py` (class `SupabaseStorage`).

Python dicts are modelled as insertion-ordered association lists with the
operations `dictGet` (lookup), `dictSet` (assignment: replaces the value
in place if the key is present, appends otherwise) and `dictDel`
(deletion).  The ambient filesystem is a map from path to byte content;
byte strings are `List Nat`.  Wall-clock readings are explicit
parameters: `datetime.now().strftime` is modelled by `strftimeSecond` on
a `Timestamp` record and `datetime.now().isoformat()` by an opaque
string parameter, one per `now()` call in the source.
-/

set_option autoImplicit false

universe u

/-- Python `dict` lookup `m.get(k)` / `m[k]` on an association list:
the first binding of the key, if any. -/
def dictGet {α : Type u} : List (String × α) → String → Option α
  | [], _ => none
  | (k, v) :: rest, key => if k = key then some v else dictGet rest key

/-- Python `dict` assignment `m[k] = v`: replaces the first binding of the
key in place, otherwise appends the new binding (insertion order). -/
def dictSet {α : Type u} : List (String × α) → String → α → List (String × α)
  | [], key, v => [(key, v)]
  | (k, w) :: rest, key, v =>
      if k = key then (key, v) :: rest else (k, w) :: dictSet rest key v

/-- Python `del m[k]` / SQL `DELETE ... WHERE id = ?`: removes every
binding of the key (dict keys are unique, so at most one exists in any
reachable state). -/
def dictDel {α : Type u} : List (String × α) → String → List (String × α)
  | [], _ => []
  | (k, w) :: rest, key =>
      if k = key then dictDel rest key else (k, w) :: dictDel rest key

/-! ## Workflow state machine (`src/app.py`) -/

namespace App

/-- The heterogeneous Python payload stored in a step's `data` field,
restricted to the keys the core reads back: `file` (video step),
`title`/`description`/`tags` (metadata step), and the publish-result keys
`video_id`/`url`/`uploaded_at` written by `final_upload`.  Every other
key of the Python dicts is opaque to the state machine. -/
structure StepData where
  file : Option String := none
  title : Option String := none
  description : Option String := none
  tags : Option (List String) := none
  video_id : Option String := none
  url : Option String := none
  uploaded_at : Option String := none
deriving Repr, DecidableEq

/-- One entry of a workflow's `steps` dict:
`{'status': ..., 'data': ..., 'completed_at': ...}` (the `completed_at`
key is absent until the step is generated). -/
structure StepState where
  status : String
  data : Option StepData
  completed_at : Option String := none
deriving Repr, DecidableEq

/-- One entry of the global `WORKFLOWS` registry. -/
structure Workflow where
  id : String
  topic : String
  created_at : String
  steps : List (String × StepState)
deriving Repr, DecidableEq

/-- The module-level `WORKFLOWS = {}` registry. -/
abbrev Workflows := List (String × Workflow)

/-- The fixed `steps_order = ['research', 'script', 'metadata', 'video',
'upload']` of `approve_step`, which is also the insertion order of the
`steps` dict literal in `start_workflow`. -/
def stepsOrder : List String := ["research", "script", "metadata", "video", "upload"]

/-- Initial per-step entry `{'status': 'pending', 'data': None}`. -/
def initStep : StepState := { status := "pending", data := none, completed_at := none }

/-- Route `POST /start-workflow`: registers a fresh workflow whose
`steps` dict holds the five fixed steps, each `pending`.  The workflow id
(`str(uuid.uuid4())[:8]`) and `datetime.now().isoformat()` are passed in
as the two effectful readings. -/
def start_workflow (workflow_id topic created_at : String) : Workflow :=
  { id := workflow_id
    topic := topic
    created_at := created_at
    steps := stepsOrder.map (fun s => (s, initStep)) }

/-- Outcome of the `POST /api/workflow/<id>/step/<step>` route. -/
inductive WSResult where
  | notFound
  | unknownStep
  | serverError
  | ok
deriving Repr, DecidableEq

/-- Route `workflow_step`, `POST` branch: generation for the four
generatable steps.  The payload `d` built by the step's branch is a
parameter (the generating agents are external collaborators), `t` is the
`datetime.now().isoformat()` stamp, and `raises` models an exception
escaping the generation branch (caught by the outer `try`, returning 500
with no state change).  A step name outside the four branches returns
400 `Unknown step` and mutates nothing; in particular `upload` cannot be
generated here. -/
def workflow_step (wfs : Workflows) (workflow_id step : String)
    (d : StepData) (t : String) (raises : Bool) : WSResult × Workflows :=
  match dictGet wfs workflow_id with
  | none => (.notFound, wfs)
  | some wf =>
      if step = "research" ∨ step = "script" ∨ step = "metadata" ∨ step = "video" then
        if raises then (.serverError, wfs)
        else
          let wf' := { wf with
            steps := dictSet wf.steps step
              { status := "completed", data := some d, completed_at := some t } }
          (.ok, dictSet wfs workflow_id wf')
      else (.unknownStep, wfs)

/-- Outcome of the `POST /api/workflow/<id>/approve/<step>` route. -/
inductive ApproveResult where
  | notFound
  | keyError
  | valueError
  | ok (next_step : Option String)
deriving Repr, DecidableEq

/-- Index of the first occurrence of `a` in `l`, as `list.index` raises
`ValueError` when absent. -/
def listIndex : List String → String → Option Nat
  | [], _ => none
  | x :: rest, a =>
      if x = a then some 0
      else (listIndex rest a).map (· + 1)

/-- Route `approve_step`: on a known workflow it executes
`workflow['steps'][step]['status'] = 'approved'` — a `KeyError` if the
step key is absent (500, untouched state), otherwise an unconditional
in-place status write with no check of the current status — then
computes `steps_order.index(step)` (a `ValueError` after the mutation if
the step is not one of the five) and returns the next step name, `None`
for the last step. -/
def approve_step (wfs : Workflows) (workflow_id step : String) :
    ApproveResult × Workflows :=
  match dictGet wfs workflow_id with
  | none => (.notFound, wfs)
  | some wf =>
      match dictGet wf.steps step with
      | none => (.keyError, wfs)
      | some st =>
          let wf' := { wf with steps := dictSet wf.steps step { st with status := "approved" } }
          let wfs' := dictSet wfs workflow_id wf'
          match listIndex stepsOrder step with
          | none => (.valueError, wfs')
          | some i => (.ok (stepsOrder.get? (i + 1)), wfs')

/-- Route `reject_step`: same shape as `approve_step` but writes
`'rejected'` and computes no next step. -/
def reject_step (wfs : Workflows) (workflow_id step : String) :
    ApproveResult × Workflows :=
  match dictGet wfs workflow_id with
  | none => (.notFound, wfs)
  | some wf =>
      match dictGet wf.steps step with
      | none => (.keyError, wfs)
      | some st =>
          let wf' := { wf with steps := dictSet wf.steps step { st with status := "rejected" } }
          (.ok none, dictSet wfs workflow_id wf')

/-- Outcome of the `POST /api/workflow/<id>/upload` route
(`final_upload` in the source). -/
inductive UploadResult where
  | notFound
  | notJson
  | stepNotApproved (step : String)
  | noVideoFile
  | serverError
  | uploaded
deriving Repr, DecidableEq

/-- Result of the gating loop
`for step in ['research','script','metadata','video']`. -/
inductive GateCheck where
  | missing
  | unapproved (step : String)
  | allApproved
deriving Repr, DecidableEq

/-- The gating loop of `final_upload`: walks the list in order; a missing
step key is a `KeyError` (500), the first step whose status is not
`'approved'` produces the 400 error naming that step. -/
def checkApproved (wf : Workflow) : List String → GateCheck
  | [] => .allApproved
  | s :: rest =>
      match dictGet wf.steps s with
      | none => .missing
      | some st => if st.status ≠ "approved" then .unapproved s else checkApproved wf rest

/-- The fixed gating list of `final_upload`. -/
def gatingSteps : List String := ["research", "script", "metadata", "video"]

/-- Route `final_upload`: after the workflow lookup and the
`request.is_json` guard, it checks the four gating steps in order, reads
the video step's `data.get('file')` (400 if absent), builds the upload
payload from the metadata step's `data['title']`, `['description']`,
`['tags']` (a `TypeError`/`KeyError` caught as 500 if `data` is `None`
or a key is missing), then sets `upload.status = 'uploaded'` and stores
the mock publish result.  `now` is the `datetime.now().isoformat()`
reading of the stored `uploaded_at` field. -/
def final_upload (wfs : Workflows) (workflow_id : String) (isJson : Bool)
    (now : String) : UploadResult × Workflows :=
  match dictGet wfs workflow_id with
  | none => (.notFound, wfs)
  | some wf =>
      if !isJson then (.notJson, wfs)
      else
        match checkApproved wf gatingSteps with
        | .missing => (.serverError, wfs)
        | .unapproved s => (.stepNotApproved s, wfs)
        | .allApproved =>
            match ((dictGet wf.steps "video").bind (·.data)).bind (·.file) with
            | none => (.noVideoFile, wfs)
            | some _ =>
                match (dictGet wf.steps "metadata").bind (·.data) with
                | none => (.serverError, wfs)
                | some md =>
                    match md.title, md.description, md.tags with
                    | some title, some descr, some _ =>
                        match dictGet wf.steps "upload" with
                        | none => (.serverError, wfs)
                        | some up =>
                            let up' := { up with
                              status := "uploaded"
                              data := some { video_id := some "dQw4w9WgXcQ"
                                             url := some "https://youtube.com/watch?v=dQw4w9WgXcQ"
                                             uploaded_at := some now
                                             title := some title
                                             description := some descr } }
                            (.uploaded,
                             dictSet wfs workflow_id
                               { wf with steps := dictSet wf.steps "upload" up' })
                    | _, _, _ => (.serverError, wfs)

/-- The set of state-mutating workflow operations, used to state the
closed-step-set invariant: one constructor per route that can touch a
workflow's `steps` dict (the `GET` branch of `workflow_step` and the
summary route only read). -/
inductive Op where
  | genStep (workflow_id step : String) (d : StepData) (t : String) (raises : Bool)
  | approve (workflow_id step : String)
  | reject (workflow_id step : String)
  | upload (workflow_id : String) (isJson : Bool) (now : String)
deriving Repr

/-- State effect of one route invocation. -/
def applyOp (wfs : Workflows) : Op → Workflows
  | .genStep wid step d t raises => (workflow_step wfs wid step d t raises).2
  | .approve wid step => (approve_step wfs wid step).2
  | .reject wid step => (reject_step wfs wid step).2
  | .upload wid isJson now => (final_upload wfs wid isJson now).2

/-- Key list of a workflow's `steps` dict. -/
def stepKeys (wf : Workflow) : List String := wf.steps.map Prod.fst

end App

/-! ## Storage backends (`src/utils/video_storage.py`, `src/utils/sqlite_storage.py`) -/

/-- Raw video bytes (`video_data: bytes`); only the length is ever
inspected by the core. -/
abbrev Bytes := List Nat

/-- One `datetime.now()` reading, broken into the calendar fields that
`strftime("%Y%m%d_%H%M%S")` formats; `micro` carries the sub-second part
that the format string drops. -/
structure Timestamp where
  year : Nat
  month : Nat
  day : Nat
  hour : Nat
  minute : Nat
  second : Nat
  micro : Nat
deriving Repr, DecidableEq

/-- Single decimal digit character. -/
def digitChar : Nat → Char
  | 0 => '0' | 1 => '1' | 2 => '2' | 3 => '3' | 4 => '4'
  | 5 => '5' | 6 => '6' | 7 => '7' | 8 => '8' | _ => '9'

/-- Decimal digit list, structurally recursive on a fuel argument so the
kernel can evaluate it (the fuel `n` itself always suffices since the
value shrinks by a factor of ten per step). -/
def natDigitsFuel : Nat → Nat → List Char
  | 0, n => [digitChar n]
  | fuel + 1, n =>
      if n < 10 then [digitChar n]
      else natDigitsFuel fuel (n / 10) ++ [digitChar (n % 10)]

/-- Decimal digit list of a natural number (most significant first). -/
def natDigits (n : Nat) : List Char := natDigitsFuel n n

/-- Zero-pad to two digits (`%m`, `%d`, `%H`, `%M`, `%S`). -/
def pad2 (n : Nat) : List Char :=
  if n < 10 then '0' :: natDigits n else natDigits n

/-- Zero-pad to four digits (`%Y`). -/
def pad4 (n : Nat) : List Char :=
  if n < 10 then '0' :: '0' :: '0' :: natDigits n
  else if n < 100 then '0' :: '0' :: natDigits n
  else if n < 1000 then '0' :: natDigits n
  else natDigits n

/-- Model of `datetime.now().strftime("%Y%m%d_%H%M%S")`: second-resolution; the
`micro` field does not appear in the output. -/
def strftimeSecond (t : Timestamp) : String :=
  String.mk (pad4 t.year ++ pad2 t.month ++ pad2 t.day ++ ['_'] ++
             pad2 t.hour ++ pad2 t.minute ++ pad2 t.second)

/-- The character predicate of the sanitizer comprehension:
`c.isalnum() or c in '-_ '` (ASCII alphanumerics in this embedding). -/
def isSafeChar (c : Char) : Bool :=
  c.isAlphanum || c = '-' || c = '_' || c = ' '

/-- Model of `"".join(c for c in topic[:30] if c.isalnum() or c in '-_ ')`:
truncate to the 30-character prefix, then keep only safe characters. -/
def sanitizeTopic (topic : String) : String :=
  String.mk ((topic.toList.take 30).filter isSafeChar)

/-- Model of `filename = f"{safe_topic}_{timestamp}.mp4"`, the line shared
verbatim by `VideoStorage.save_video` and `SQLiteStorage.save_video`. -/
def videoFilename (topic : String) (now : Timestamp) : String :=
  sanitizeTopic topic ++ "_" ++ strftimeSecond now ++ ".mp4"

/-- Model of `Config.VIDEOS_DIR` (its concrete value never matters to the claims). -/
def videosDir : String := "output/videos"

/-- Model of `os.path.join(dir, name)`. -/
def joinPath (dir name : String) : String := dir ++ "/" ++ name

/-- The metadata record built by `save_video` and returned by
`get_video_info` (one row of the SQLite `videos` table / one value of
the JSON metadata dict).  `youtube_id` exists only in the SQLite schema
and stays `None`. -/
structure VideoRecord where
  id : String
  filename : String
  filepath : String
  topic : String
  duration : Rat
  created_at : String
  status : String
  file_size : Nat
  playable : Bool
  url : String
  youtube_id : Option String := none
deriving Repr, DecidableEq

namespace VideoStorage

/-- State of the filesystem backend: the in-memory `self.metadata` dict
(mirrored to `video_metadata.json`) keyed by video id, together with the
ambient filesystem as a map from path to byte content. -/
structure State where
  metadata : List (String × VideoRecord)
  fs : List (String × Bytes)
deriving Repr, DecidableEq

/-- Model of `os.path.exists` against the modelled filesystem. -/
def fileExists (s : State) (path : String) : Bool :=
  (dictGet s.fs path).isSome

/-- Model of `VideoStorage.save_video`: derive the filename from the sanitized
topic and the second-resolution timestamp, write the bytes, then record
the metadata under `video_id = timestamp` and return it.  `now` is the
`datetime.now()` of the timestamp line and `now_iso` the separate
`datetime.now().isoformat()` of the `created_at` field. -/
def save_video (s : State) (video_data : Bytes) (topic : String) (duration : Rat)
    (now : Timestamp) (now_iso : String) : VideoRecord × State :=
  let timestamp := strftimeSecond now
  let filename := videoFilename topic now
  let filepath := joinPath videosDir filename
  let s1 : State := { s with fs := dictSet s.fs filepath video_data }
  let video_id := timestamp
  let info : VideoRecord :=
    { id := video_id
      filename := filename
      filepath := filepath
      topic := topic
      duration := duration
      created_at := now_iso
      status := "completed"
      file_size := video_data.length
      playable := true
      url := "/api/videos/" ++ video_id }
  (info, { s1 with metadata := dictSet s1.metadata video_id info })

/-- Model of `VideoStorage.get_video_info`: `self.metadata.get(video_id)`. -/
def get_video_info (s : State) (video_id : String) : Option VideoRecord :=
  dictGet s.metadata video_id

/-- Model of `VideoStorage.get_video_file`: the stored filepath, but only when the
metadata record exists and the file still exists on disk. -/
def get_video_file (s : State) (video_id : String) : Option String :=
  match get_video_info s video_id with
  | some info => if fileExists s info.filepath then some info.filepath else none
  | none => none

/-- Model of `VideoStorage.delete_video`: removes file and metadata and returns
`True` only when the record exists *and* its file exists on disk;
otherwise returns `False` with no mutation. -/
def delete_video (s : State) (video_id : String) : Bool × State :=
  match get_video_info s video_id with
  | some info =>
      if fileExists s info.filepath then
        (true, { metadata := dictDel s.metadata video_id,
                 fs := dictDel s.fs info.filepath })
      else (false, s)
  | none => (false, s)

end VideoStorage

namespace SQLiteStorage

/-- State of the SQLite backend: the `videos` table keyed by the primary
key `id`, together with the ambient filesystem. -/
structure State where
  rows : List (String × VideoRecord)
  fs : List (String × Bytes)
deriving Repr, DecidableEq

/-- Model of `SQLiteStorage.save_video`: identical filename/id derivation to the
filesystem backend, file write, then `INSERT OR REPLACE` of the row
keyed by `video_id = timestamp`. -/
def save_video (s : State) (video_data : Bytes) (topic : String) (duration : Rat)
    (now : Timestamp) (now_iso : String) : VideoRecord × State :=
  let timestamp := strftimeSecond now
  let filename := videoFilename topic now
  let filepath := joinPath videosDir filename
  let s1 : State := { s with fs := dictSet s.fs filepath video_data }
  let video_id := timestamp
  let info : VideoRecord :=
    { id := video_id
      filename := filename
      filepath := filepath
      topic := topic
      duration := duration
      created_at := now_iso
      status := "completed"
      file_size := video_data.length
      playable := true
      url := "/api/videos/" ++ video_id }
  (info, { s1 with rows := dictSet s1.rows video_id info })

/-- Model of `SQLiteStorage.get_video_info`: `SELECT * FROM videos WHERE id = ?`. -/
def get_video_info (s : State) (video_id : String) : Option VideoRecord :=
  dictGet s.rows video_id

/-- Model of `os.path.exists` against the modelled filesystem. -/
def fileExists (s : State) (path : String) : Bool :=
  (dictGet s.fs path).isSome

/-- Model of `SQLiteStorage.get_video_file`: stored filepath only when the row
exists and the file exists on disk. -/
def get_video_file (s : State) (video_id : String) : Option String :=
  match get_video_info s video_id with
  | some info => if fileExists s info.filepath then some info.filepath else none
  | none => none

/-- Model of `SQLiteStorage.delete_video`: `False` only for an unknown id.  For a
known id the file removal is attempted inside `try/except Exception:
pass` (`removeRaises` models `os.remove` raising, which is swallowed),
the row is deleted unconditionally, and the result is `True` regardless
of whether the object removal happened. -/
def delete_video (s : State) (video_id : String) (removeRaises : Bool) : Bool × State :=
  match get_video_info s video_id with
  | none => (false, s)
  | some info =>
      let fs1 :=
        if fileExists s info.filepath && !removeRaises then dictDel s.fs info.filepath
        else s.fs
      (true, { rows := dictDel s.rows video_id, fs := fs1 })

end SQLiteStorage

namespace S3PostgresStorage

/-- State of the S3+Postgres backend (`src/utils/s3_storage.py`): the
Postgres `videos` table keyed by the primary key `id`, and the S3 bucket
as a map from object key to bytes. -/
structure State where
  rows : List (String × VideoRecord)
  objects : List (String × Bytes)
deriving Repr, DecidableEq

/-- Model of `generate_presigned_url('get_object', ..., ExpiresIn=3600)`
as an opaque deterministic handle for a bucket key. -/
def presignedUrl (key : String) : String := "presigned:" ++ key

/-- Model of `S3PostgresStorage.save_video`: same filename/id derivation,
`put_object` to the bucket, then
`INSERT ... ON CONFLICT (id) DO NOTHING RETURNING *`.  When a row with
the derived id already exists, the insert does nothing, `RETURNING`
yields no row, and the function returns the locally built dict while the
table keeps the *old* row; otherwise the new row is inserted and
returned.  `created_utc` is the `datetime.utcnow()` reading. -/
def save_video (s : State) (video_data : Bytes) (topic : String) (duration : Rat)
    (now : Timestamp) (created_utc : String) : VideoRecord × State :=
  let timestamp := strftimeSecond now
  let filename := videoFilename topic now
  let key := filename
  let s1 : State := { s with objects := dictSet s.objects key video_data }
  let video_id := timestamp
  let info : VideoRecord :=
    { id := video_id
      filename := filename
      filepath := key
      topic := topic
      duration := duration
      created_at := created_utc
      status := "completed"
      file_size := video_data.length
      playable := true
      url := presignedUrl key }
  match dictGet s1.rows video_id with
  | some _ => (info, s1)
  | none => (info, { s1 with rows := dictSet s1.rows video_id info })

/-- Model of `S3PostgresStorage.get_video_info`:
`SELECT * FROM videos WHERE id = %s`. -/
def get_video_info (s : State) (video_id : String) : Option VideoRecord :=
  dictGet s.rows video_id

end S3PostgresStorage

namespace SupabaseStorage

/-- State of the Supabase backend (`src/utils/supabase_storage.py`): the
remote `videos` table reached over REST, and the storage bucket as a map
from object name to bytes. -/
structure State where
  rows : List (String × VideoRecord)
  objects : List (String × Bytes)
deriving Repr, DecidableEq

/-- Model of `_get_public_url(filename)` as an opaque deterministic
handle. -/
def publicUrl (filename : String) : String := "public:" ++ filename

/-- Model of `SupabaseStorage.save_video`: same filename/id derivation;
`uploadOk` is `_upload_object`'s boolean (`False` makes the method raise
`RuntimeError`), `insertFails` models a non-2xx response from the
metadata POST (`_insert_metadata` returning `None`), in which case the
method returns the locally built record even though no row was written
to the remote table. -/
def save_video (s : State) (video_data : Bytes) (topic : String) (duration : Rat)
    (now : Timestamp) (iso : String) (uploadOk insertFails : Bool) :
    Except Unit (VideoRecord × State) :=
  let timestamp := strftimeSecond now
  let filename := videoFilename topic now
  if !uploadOk then .error ()
  else
    let s1 : State := { s with objects := dictSet s.objects filename video_data }
    let video_id := timestamp
    let record : VideoRecord :=
      { id := video_id
        filename := filename
        filepath := filename
        topic := topic
        duration := duration
        created_at := iso
        status := "completed"
        file_size := video_data.length
        playable := true
        url := publicUrl filename }
    if insertFails then .ok (record, s1)
    else .ok (record, { s1 with rows := dictSet s1.rows video_id record })

/-- Model of `SupabaseStorage.get_video_info`: `_get_metadata` queries
the remote table by id. -/
def get_video_info (s : State) (video_id : String) : Option VideoRecord :=
  dictGet s.rows video_id

end SupabaseStorage

/-! ## Backend selection (`get_video_storage` in `src/utils/video_storage.py`) -/

/-- The five storage backends the selector can produce. -/
inductive Backend where
  | firebase
  | s3
  | supabase
  | sqlite
  | filesystem
deriving Repr, DecidableEq

/-- Environment as probed by `get_video_storage`: whether each optional
adapter module imported successfully (`create_*_storage_if_configured`
is not `None`) and whether each `os.getenv` guard is truthy. -/
structure Env where
  firebaseImport : Bool
  s3Import : Bool
  supabaseImport : Bool
  sqliteImport : Bool
  firebaseBucket : Bool
  awsBucket : Bool
  databaseUrl : Bool
  supabaseUrl : Bool
  supabaseKey : Bool
deriving Repr, DecidableEq

/-- Outcome of one `create_*_storage_if_configured()` call: an instance,
`None`, or an exception escaping the call. -/
inductive CtorOutcome where
  | ok
  | isNone
  | raises
deriving Repr, DecidableEq

/-- One constructor outcome per backend factory. -/
structure Outcomes where
  firebase : CtorOutcome
  s3 : CtorOutcome
  supabase : CtorOutcome
  sqlite : CtorOutcome
deriving Repr, DecidableEq

/-- SQLite branch and final fallback of the selector: the factory call
is wrapped in `try ... except Exception: pass`, so an exception or a
falsy instance falls through to `VideoStorage()` (whose constructor
swallows metadata-load errors).  The Firebase/S3/Supabase factory calls
above are *not* wrapped in `try`, so an exception there propagates
(`Except.error`). -/
def selectAfterSupabase (env : Env) (oc : Outcomes) : Except Unit Backend :=
  if env.sqliteImport then
    match oc.sqlite with
    | .ok => .ok .sqlite
    | .isNone => .ok .filesystem
    | .raises => .ok .filesystem
  else .ok .filesystem

/-- Supabase branch of the selector (guard
`create_supabase_storage_if_configured and SUPABASE_URL and SUPABASE_KEY`). -/
def selectAfterS3 (env : Env) (oc : Outcomes) : Except Unit Backend :=
  if env.supabaseImport && env.supabaseUrl && env.supabaseKey then
    match oc.supabase with
    | .raises => .error ()
    | .ok => .ok .supabase
    | .isNone => selectAfterSupabase env oc
  else selectAfterSupabase env oc

/-- S3+Postgres branch of the selector (guard
`create_s3_storage_if_configured and AWS_S3_BUCKET and DATABASE_URL`). -/
def selectAfterFirebase (env : Env) (oc : Outcomes) : Except Unit Backend :=
  if env.s3Import && env.awsBucket && env.databaseUrl then
    match oc.s3 with
    | .raises => .error ()
    | .ok => .ok .s3
    | .isNone => selectAfterS3 env oc
  else selectAfterS3 env oc

/-- Model of `get_video_storage` with `_storage_instance` still `None` (the first
call of the process; later calls return the memoized instance), entering
at the Firebase branch. -/
def get_video_storage (env : Env) (oc : Outcomes) : Except Unit Backend :=
  if env.firebaseImport && env.firebaseBucket then
    match oc.firebase with
    | .raises => .error ()
    | .ok => .ok .firebase
    | .isNone => selectAfterFirebase env oc
  else selectAfterFirebase env oc

/-- Status of a step of a workflow inside the registry, if both exist. -/
def App.stepStatus (wfs : App.Workflows) (workflow_id step : String) : Option String :=
  ((dictGet wfs workflow_id).bind (fun wf => dictGet wf.steps step)).map App.StepState.status

/-- Two `datetime.now()` readings within the same wall-clock second:
all fields that `strftime("%Y%m%d_%H%M%S")` prints agree (the
microsecond parts may differ freely). -/
def sameSecond (t1 t2 : Timestamp) : Prop :=
  t1.year = t2.year ∧ t1.month = t2.month ∧ t1.day = t2.day ∧
  t1.hour = t2.hour ∧ t1.minute = t2.minute ∧ t1.second = t2.second

/-! ## Concrete states used as evaluation inputs -/

/-- A metadata payload as generated by the `metadata` branch of
`workflow_step`. -/
def mdPayload : App.StepData :=
  { title := some "Cats: Complete Guide 2025"
    description := some "Explore the key aspects of Cats"
    tags := some ["AI", "technology"] }

/-- A video payload as generated by the `video` branch of
`workflow_step` (carries the `file` key). -/
def vidPayload : App.StepData := { file := some "/api/videos/20250102_120000" }

/-- A workflow in which the four gating steps are `approved` (with the
payloads the generation branches store) and `upload` is still pending. -/
def wfAllApproved : App.Workflow :=
  { id := "w"
    topic := "Cats"
    created_at := "t0"
    steps := [("research", ⟨"approved", some {}, some "t1"⟩),
              ("script", ⟨"approved", some {}, some "t2"⟩),
              ("metadata", ⟨"approved", some mdPayload, some "t3"⟩),
              ("video", ⟨"approved", some vidPayload, some "t4"⟩),
              ("upload", App.initStep)] }

/-- Like `wfAllApproved` but `metadata` is only `completed`. -/
def wfMetaCompleted : App.Workflow :=
  { wfAllApproved with
    steps := [("research", ⟨"approved", some {}, some "t1"⟩),
              ("script", ⟨"approved", some {}, some "t2"⟩),
              ("metadata", ⟨"completed", some mdPayload, some "t3"⟩),
              ("video", ⟨"approved", some vidPayload, some "t4"⟩),
              ("upload", App.initStep)] }

/-- A concrete stored video record. -/
def recV1 : VideoRecord :=
  { id := "20250102_120000"
    filename := "Cats_20250102_120000.mp4"
    filepath := "output/videos/Cats_20250102_120000.mp4"
    topic := "Cats"
    duration := 10
    created_at := "t"
    status := "completed"
    file_size := 3
    playable := true
    url := "/api/videos/20250102_120000" }

/-- Filesystem backend holding `recV1` with its file present on disk. -/
def fsWithFile : VideoStorage.State :=
  { metadata := [("20250102_120000", recV1)]
    fs := [("output/videos/Cats_20250102_120000.mp4", [0, 1, 2])] }

/-- Filesystem backend holding `recV1` whose file was removed
out-of-band. -/
def fsNoFile : VideoStorage.State :=
  { metadata := [("20250102_120000", recV1)], fs := [] }

/-- Empty filesystem backend. -/
def fsEmpty : VideoStorage.State := { metadata := [], fs := [] }

/-- SQLite backend holding `recV1` with its file present on disk. -/
def sqWithFile : SQLiteStorage.State :=
  { rows := [("20250102_120000", recV1)]
    fs := [("output/videos/Cats_20250102_120000.mp4", [0, 1, 2])] }

/-- SQLite backend holding `recV1` whose file was removed out-of-band. -/
def sqNoFile : SQLiteStorage.State :=
  { rows := [("20250102_120000", recV1)], fs := [] }

/-- S3+Postgres backend whose table already holds a row under the id a
same-second save would derive. -/
def s3WithRow : S3PostgresStorage.State :=
  { rows := [("20250102_120000", recV1)], objects := [] }

/-- Empty S3+Postgres backend. -/
def s3Empty : S3PostgresStorage.State := { rows := [], objects := [] }

/-- Empty Supabase backend. -/
def supaEmpty : SupabaseStorage.State := { rows := [], objects := [] }

/-- A concrete wall-clock reading. -/
def tsNoon : Timestamp := ⟨2025, 1, 2, 12, 0, 0, 0⟩

/-- A distinct reading half a second later, within the same wall-clock
second as `tsNoon`. -/
def tsNoonLater : Timestamp := ⟨2025, 1, 2, 12, 0, 0, 500000⟩

/-! ## Auxiliary lemmas -/

theorem dictGet_dictSet_self {α : Type u} (m : List (String × α)) (k : String) (v : α) :
    dictGet (dictSet m k v) k = some v := by
  induction m with
  | nil => simp [dictSet, dictGet]
  | cons p rest ih =>
      obtain ⟨k', w⟩ := p
      by_cases h : k' = k
      · simp [dictSet, dictGet, h]
      · simp [dictSet, dictGet, h, ih]

theorem dictGet_dictSet_ne {α : Type u} (m : List (String × α)) (k k' : String) (v : α)
    (h : k' ≠ k) : dictGet (dictSet m k v) k' = dictGet m k' := by
  have h' : ¬ k = k' := fun hh => h hh.symm
  induction m with
  | nil => simp [dictSet, dictGet, h']
  | cons p rest ih =>
      obtain ⟨k'', w⟩ := p
      by_cases hk : k'' = k
      · subst hk
        simp [dictSet, dictGet, h']
      · by_cases hk' : k'' = k'
        · subst hk'
          simp [dictSet, dictGet, hk]
        · simp [dictSet, dictGet, hk, hk', ih]

theorem dictGet_dictDel_self {α : Type u} (m : List (String × α)) (k : String) :
    dictGet (dictDel m k) k = none := by
  induction m with
  | nil => simp [dictDel, dictGet]
  | cons p rest ih =>
      obtain ⟨k', w⟩ := p
      by_cases h : k' = k
      · simp [dictDel, h, ih]
      · simp [dictDel, dictGet, h, ih]

theorem dictGet_dictDel_ne {α : Type u} (m : List (String × α)) (k k' : String)
    (h : k' ≠ k) : dictGet (dictDel m k) k' = dictGet m k' := by
  have h' : ¬ k = k' := fun hh => h hh.symm
  induction m with
  | nil => simp [dictDel]
  | cons p rest ih =>
      obtain ⟨k'', w⟩ := p
      by_cases hk : k'' = k
      · subst hk
        simp [dictDel, dictGet, h', ih]
      · simp [dictDel, dictGet, hk, ih]

/-- Assigning to a key that is already present does not change the key
set (in particular, no key is added or removed). -/
theorem keys_dictSet_of_mem {α : Type u} (m : List (String × α)) (k : String) (v w : α)
    (h : dictGet m k = some w) :
    (dictSet m k v).map Prod.fst = m.map Prod.fst := by
  induction m with
  | nil => simp [dictGet] at h
  | cons p rest ih =>
      obtain ⟨k', v'⟩ := p
      by_cases hk : k' = k
      · simp [dictSet, hk]
      · simp [dictGet, hk] at h
        simp [dictSet, hk, ih h]

/-- A present key stays present (with the looked-up binding) exactly when
`dictGet` finds it. -/
theorem dictGet_isSome_of_mem_keys {α : Type u} (m : List (String × α)) (k : String)
    (h : k ∈ m.map Prod.fst) : (dictGet m k).isSome := by
  induction m with
  | nil => simp at h
  | cons p rest ih =>
      obtain ⟨k', v'⟩ := p
      by_cases hk : k' = k
      · simp [dictGet, hk]
      · have hmem : k ∈ rest.map Prod.fst := by
          simp at h
          rcases h with h | h
          · exact absurd h.symm hk
          · simpa using h
        simp [dictGet, hk, ih hmem]

theorem mem_keys_of_dictGet {α : Type u} (m : List (String × α)) (k : String) (v : α)
    (h : dictGet m k = some v) : k ∈ m.map Prod.fst := by
  induction m with
  | nil => simp [dictGet] at h
  | cons p rest ih =>
      obtain ⟨k', w⟩ := p
      by_cases hk : k' = k
      · subst hk; simp
      · simp [dictGet, hk] at h
        simp [hk]
        right
        have := ih h
        simpa using this

theorem listIndex_isSome_of_mem (l : List String) (a : String) (h : a ∈ l) :
    ∃ i, App.listIndex l a = some i := by
  induction l with
  | nil => simp at h
  | cons x rest ih =>
      by_cases hx : x = a
      · exact ⟨0, by simp [App.listIndex, hx]⟩
      · have hmem : a ∈ rest := by
          rcases List.mem_cons.mp h with h1 | h1
          · exact absurd h1.symm hx
          · exact h1
        obtain ⟨i, hi⟩ := ih hmem
        exact ⟨i + 1, by simp [App.listIndex, hx, hi]⟩

/-- State effect of `workflow_step` (POST): either the registry is
untouched, or one of the four generatable steps of a known workflow is
overwritten with a fresh `completed` entry. -/
theorem workflow_step_state (wfs : App.Workflows) (wid step : String)
    (d : App.StepData) (t : String) (raises : Bool) :
    (App.workflow_step wfs wid step d t raises).2 = wfs ∨
    ∃ wf, dictGet wfs wid = some wf ∧
      (step = "research" ∨ step = "script" ∨ step = "metadata" ∨ step = "video") ∧
      (App.workflow_step wfs wid step d t raises).2 =
        dictSet wfs wid { wf with
          steps := dictSet wf.steps step
            { status := "completed", data := some d, completed_at := some t } } := by
  unfold App.workflow_step
  repeat' split
  all_goals try (left; rfl)
  all_goals (right; exact ⟨_, by assumption, by assumption, rfl⟩)

/-- State effect of `approve_step`: either untouched, or an existing step
of a known workflow gets its status overwritten with `approved`. -/
theorem approve_step_state (wfs : App.Workflows) (wid step : String) :
    (App.approve_step wfs wid step).2 = wfs ∨
    ∃ wf st, dictGet wfs wid = some wf ∧ dictGet wf.steps step = some st ∧
      (App.approve_step wfs wid step).2 =
        dictSet wfs wid { wf with
          steps := dictSet wf.steps step { st with status := "approved" } } := by
  unfold App.approve_step
  repeat' split
  all_goals try (left; rfl)
  all_goals (right; exact ⟨_, _, by assumption, by assumption, rfl⟩)

/-- State effect of `reject_step`: either untouched, or an existing step
of a known workflow gets its status overwritten with `rejected`. -/
theorem reject_step_state (wfs : App.Workflows) (wid step : String) :
    (App.reject_step wfs wid step).2 = wfs ∨
    ∃ wf st, dictGet wfs wid = some wf ∧ dictGet wf.steps step = some st ∧
      (App.reject_step wfs wid step).2 =
        dictSet wfs wid { wf with
          steps := dictSet wf.steps step { st with status := "rejected" } } := by
  unfold App.reject_step
  repeat' split
  all_goals try (left; rfl)
  all_goals (right; exact ⟨_, _, by assumption, by assumption, rfl⟩)

/-- State effect of `final_upload`: either untouched, or the `upload`
step of a known workflow is overwritten. -/
theorem final_upload_state (wfs : App.Workflows) (wid : String) (isJson : Bool)
    (now : String) :
    (App.final_upload wfs wid isJson now).2 = wfs ∨
    ∃ wf up', dictGet wfs wid = some wf ∧
      (App.final_upload wfs wid isJson now).2 =
        dictSet wfs wid { wf with steps := dictSet wf.steps "upload" up' } := by
  unfold App.final_upload
  repeat' split
  all_goals try (left; rfl)
  all_goals (right; exact ⟨_, _, by assumption, rfl⟩)

/-- Overwriting an already-present step key leaves a workflow's key list
unchanged. -/
theorem stepKeys_set (wf : App.Workflow) (step : String) (v : App.StepState)
    (h : step ∈ App.stepKeys wf) :
    App.stepKeys { wf with steps := dictSet wf.steps step v } = App.stepKeys wf := by
  have hsome := dictGet_isSome_of_mem_keys wf.steps step h
  obtain ⟨w, hw⟩ := Option.isSome_iff_exists.mp hsome
  exact keys_dictSet_of_mem wf.steps step v w hw

/-- Replacing one workflow of the registry with a workflow that satisfies
the key invariant preserves the registry-wide invariant. -/
theorem stepKeys_registry_set (wfs : App.Workflows) (wid : String) (wf' : App.Workflow)
    (hkeys : ∀ wid2 wf2, dictGet wfs wid2 = some wf2 → App.stepKeys wf2 = App.stepsOrder)
    (hwf' : App.stepKeys wf' = App.stepsOrder) :
    ∀ wid2 wf2, dictGet (dictSet wfs wid wf') wid2 = some wf2 →
      App.stepKeys wf2 = App.stepsOrder := by
  intro wid2 wf2 h
  by_cases hw : wid2 = wid
  · subst hw
    rw [dictGet_dictSet_self] at h
    cases h
    exact hwf'
  · rw [dictGet_dictSet_ne _ _ _ _ hw] at h
    exact hkeys _ _ h

/-! ## C1 — `approve_step` and the `completed` precondition -/

/-- C1 (counterexample): on a freshly created workflow the `research`
step is `pending`, not `completed`, yet `approve_step` succeeds, answers
next step `script`, and mutates the status to `approved` — refuting the
claim that `approve_step` succeeds only from `completed` and otherwise
fails with an `InvalidTransitionError` leaving the state unchanged. -/
theorem approve_step_pending_succeeds :
    App.stepStatus [("w", App.start_workflow "w" "Cats" "t0")] "w" "research" = some "pending" ∧
    (App.approve_step [("w", App.start_workflow "w" "Cats" "t0")] "w" "research").1
      = App.ApproveResult.ok (some "script") ∧
    App.stepStatus (App.approve_step [("w", App.start_workflow "w" "Cats" "t0")] "w" "research").2
      "w" "research" = some "approved" :=
  ⟨rfl, rfl, rfl⟩

/-- C1 (amended): `approve_step` performs no status check at all.  On a
known workflow and an existing step key it unconditionally sets the
status to `approved` — whatever the current status, `pending` included —
and returns the next step name in the fixed order (`none` for the last);
it fails only when the workflow id is unknown (404) or the step key is
absent (`KeyError`), and in those two cases the registry is unchanged.
No `InvalidTransitionError` exists in the code. -/
theorem approve_step_unconditional
    (wfs : App.Workflows) (wid step : String) (wf : App.Workflow) (st : App.StepState)
    (hwf : dictGet wfs wid = some wf)
    (hst : dictGet wf.steps step = some st)
    (horder : step ∈ App.stepsOrder) :
    (∃ i, App.listIndex App.stepsOrder step = some i ∧
       App.approve_step wfs wid step =
         (App.ApproveResult.ok (App.stepsOrder.get? (i + 1)),
          dictSet wfs wid
            { wf with steps := dictSet wf.steps step { st with status := "approved" } })) ∧
    App.stepStatus (App.approve_step wfs wid step).2 wid step = some "approved" ∧
    (∀ (wfs2 : App.Workflows) (wid2 step2 : String), dictGet wfs2 wid2 = none →
       App.approve_step wfs2 wid2 step2 = (.notFound, wfs2)) ∧
    (∀ (wfs2 : App.Workflows) (wid2 step2 : String) (wf2 : App.Workflow),
       dictGet wfs2 wid2 = some wf2 → dictGet wf2.steps step2 = none →
       App.approve_step wfs2 wid2 step2 = (.keyError, wfs2)) := by
  obtain ⟨i, hi⟩ := listIndex_isSome_of_mem _ _ horder
  refine ⟨⟨i, hi, ?_⟩, ?_, ?_, ?_⟩
  · simp [App.approve_step, hwf, hst, hi]
  · simp [App.approve_step, App.stepStatus, hwf, hst, hi,
          dictGet_dictSet_self]
  · intro wfs2 wid2 step2 h
    simp [App.approve_step, h]
  · intro wfs2 wid2 step2 wf2 h h'
    simp [App.approve_step, h, h']

/-- C1 (witness): the amended theorem applied to a fresh workflow whose
`research` step is still `pending`. -/
theorem approve_step_unconditional_witness :
    App.stepStatus
      (App.approve_step [("w", App.start_workflow "w" "Cats" "t0")] "w" "research").2
      "w" "research" = some "approved" :=
  (approve_step_unconditional [("w", App.start_workflow "w" "Cats" "t0")] "w" "research"
      (App.start_workflow "w" "Cats" "t0") App.initStep rfl rfl (by decide)).2.1

/-! ## C3 — the fixed five-step set is an invariant -/

/-- C3: a freshly created workflow's `steps` dict holds exactly the five
fixed step names `research, script, metadata, video, upload` in order,
each with status `pending`; and every mutating route (`workflow_step`
generation, `approve_step`, `reject_step`, `final_upload`) preserves the
property that every registered workflow's `steps` dict has exactly that
key list — no key is ever added or removed. -/
theorem workflow_steps_fixed_set :
    (∀ wid topic created,
       App.stepKeys (App.start_workflow wid topic created) = App.stepsOrder ∧
       ∀ p ∈ (App.start_workflow wid topic created).steps, p.2.status = "pending") ∧
    (∀ (wfs : App.Workflows) (op : App.Op),
       (∀ wid wf, dictGet wfs wid = some wf → App.stepKeys wf = App.stepsOrder) →
       (∀ wid wf', dictGet (App.applyOp wfs op) wid = some wf' →
          App.stepKeys wf' = App.stepsOrder)) := by
  constructor
  · intro wid topic created
    constructor
    · rfl
    · intro p hp
      simp only [App.start_workflow, List.mem_map] at hp
      obtain ⟨s, _, rfl⟩ := hp
      rfl
  · intro wfs op hinv
    cases op with
    | genStep wid step d t raises =>
        intro wid2 wf2 h2
        simp only [App.applyOp] at h2
        rcases workflow_step_state wfs wid step d t raises with hsame | ⟨wf, hwf, hstep, hmut⟩
        · rw [hsame] at h2
          exact hinv _ _ h2
        · rw [hmut] at h2
          have hmemO : step ∈ App.stepsOrder := by
            rcases hstep with h | h | h | h <;> subst h <;> decide
          have hmem : step ∈ App.stepKeys wf := by
            rw [hinv _ _ hwf]; exact hmemO
          refine stepKeys_registry_set wfs wid _ hinv ?_ _ _ h2
          rw [stepKeys_set _ _ _ hmem]
          exact hinv _ _ hwf
    | approve wid step =>
        intro wid2 wf2 h2
        simp only [App.applyOp] at h2
        rcases approve_step_state wfs wid step with hsame | ⟨wf, st, hwf, hst, hmut⟩
        · rw [hsame] at h2
          exact hinv _ _ h2
        · rw [hmut] at h2
          have hmem : step ∈ App.stepKeys wf := mem_keys_of_dictGet _ _ _ hst
          refine stepKeys_registry_set wfs wid _ hinv ?_ _ _ h2
          rw [stepKeys_set _ _ _ hmem]
          exact hinv _ _ hwf
    | reject wid step =>
        intro wid2 wf2 h2
        simp only [App.applyOp] at h2
        rcases reject_step_state wfs wid step with hsame | ⟨wf, st, hwf, hst, hmut⟩
        · rw [hsame] at h2
          exact hinv _ _ h2
        · rw [hmut] at h2
          have hmem : step ∈ App.stepKeys wf := mem_keys_of_dictGet _ _ _ hst
          refine stepKeys_registry_set wfs wid _ hinv ?_ _ _ h2
          rw [stepKeys_set _ _ _ hmem]
          exact hinv _ _ hwf
    | upload wid isJson now =>
        intro wid2 wf2 h2
        simp only [App.applyOp] at h2
        rcases final_upload_state wfs wid isJson now with hsame | ⟨wf, up', hwf, hmut⟩
        · rw [hsame] at h2
          exact hinv _ _ h2
        · rw [hmut] at h2
          have hmem : "upload" ∈ App.stepKeys wf := by
            rw [hinv _ _ hwf]; decide
          refine stepKeys_registry_set wfs wid _ hinv ?_ _ _ h2
          rw [stepKeys_set _ _ _ hmem]
          exact hinv _ _ hwf

/-- C3 (witness): the invariant applied to a fresh one-workflow registry
and an `approve_step` operation. -/
theorem workflow_steps_fixed_set_witness :
    App.stepKeys (App.start_workflow "w" "Cats" "t0") = App.stepsOrder ∧
    App.stepKeys
      ((dictGet (App.applyOp [("w", App.start_workflow "w" "Cats" "t0")]
          (App.Op.approve "w" "research")) "w").getD (App.start_workflow "w" "Cats" "t0"))
      = App.stepsOrder := by
  constructor
  · exact (workflow_steps_fixed_set.1 "w" "Cats" "t0").1
  · refine workflow_steps_fixed_set.2 [("w", App.start_workflow "w" "Cats" "t0")]
      (App.Op.approve "w" "research") ?_ "w" _ ?_
    · intro wid wf h
      by_cases hw : "w" = wid
      · subst hw
        simp only [dictGet, if_pos rfl] at h
        cases h
        rfl
      · simp only [dictGet, if_neg hw] at h
        cases h
    · rfl

/-! ## C2 — `final_upload` preconditions and effect -/

/-- If the gating loop of `final_upload` passes, every gating step is
present and `approved`. -/
theorem checkApproved_all (wf : App.Workflow) (l : List String)
    (h : App.checkApproved wf l = App.GateCheck.allApproved) :
    ∀ s ∈ l, ∃ st, dictGet wf.steps s = some st ∧ st.status = "approved" := by
  induction l with
  | nil => intro s hs; simp at hs
  | cons x rest ih =>
      intro s hs
      unfold App.checkApproved at h
      split at h
      · simp at h
      · rename_i st hx
        split at h
        · simp at h
        · rename_i hst
          push_neg at hst
          rcases List.mem_cons.mp hs with rfl | hmem
          · exact ⟨st, hx, hst⟩
          · exact ih h s hmem

/-- The gating loop stops at the first step in order whose status is not
`approved`, provided every earlier step is present and approved. -/
theorem checkApproved_first_unmet (wf : App.Workflow) (pre post : List String)
    (s : String) (st : App.StepState)
    (hpre : ∀ p ∈ pre, ∃ stp, dictGet wf.steps p = some stp ∧ stp.status = "approved")
    (hs : dictGet wf.steps s = some st) (hns : st.status ≠ "approved") :
    App.checkApproved wf (pre ++ s :: post) = App.GateCheck.unapproved s := by
  induction pre with
  | nil => simp [App.checkApproved, hs, hns]
  | cons x rest ih =>
      obtain ⟨stx, hx, hax⟩ := hpre x (by simp)
      have hrest := ih (fun p hp => hpre p (List.mem_cons_of_mem x hp))
      simp only [List.cons_append]
      unfold App.checkApproved
      rw [hx]
      simp only [hax, ne_eq, not_true_eq_false, if_false, ite_false]
      exact hrest

/-- C2: `final_upload` (i) succeeds only when the four gating steps
`research, script, metadata, video` are all `approved`; (ii) when the
request is JSON and some gating step (present, with every earlier gating
step approved) is not `approved`, it fails with the 400 error naming
exactly that first unmet step and leaves the registry unchanged;
(iii) on success it sets the `upload` step's status to `uploaded` and
stores the publish result (mock video id and upload time) as the
`upload` step's data. -/
theorem final_upload_gating
    (wfs : App.Workflows) (wid : String) (isJson : Bool) (now : String)
    (wf : App.Workflow) (hwf : dictGet wfs wid = some wf) :
    ((App.final_upload wfs wid isJson now).1 = App.UploadResult.uploaded →
       ∀ s ∈ App.gatingSteps, ∃ st, dictGet wf.steps s = some st ∧ st.status = "approved") ∧
    (∀ (pre post : List String) (s : String) (st : App.StepState),
       App.gatingSteps = pre ++ s :: post →
       (∀ p ∈ pre, ∃ stp, dictGet wf.steps p = some stp ∧ stp.status = "approved") →
       dictGet wf.steps s = some st → st.status ≠ "approved" → isJson = true →
       App.final_upload wfs wid isJson now = (App.UploadResult.stepNotApproved s, wfs)) ∧
    ((App.final_upload wfs wid isJson now).1 = App.UploadResult.uploaded →
       ∃ wf2 up d, dictGet (App.final_upload wfs wid isJson now).2 wid = some wf2 ∧
         dictGet wf2.steps "upload" = some up ∧ up.status = "uploaded" ∧
         up.data = some d ∧ d.video_id = some "dQw4w9WgXcQ" ∧
         d.uploaded_at = some now) := by
  refine ⟨?_, ?_, ?_⟩
  · intro h
    simp only [App.final_upload, hwf] at h
    split at h
    · simp at h
    · split at h
      · simp at h
      · simp at h
      · rename_i hc
        exact checkApproved_all wf _ hc
  · intro pre post s st hsplit hpre hs hns hj
    subst hj
    have hc : App.checkApproved wf App.gatingSteps = App.GateCheck.unapproved s := by
      rw [hsplit]
      exact checkApproved_first_unmet wf pre post s st hpre hs hns
    simp [App.final_upload, hwf, hc]
  · intro h
    simp only [App.final_upload, hwf] at h
    split at h
    · simp at h
    · rename_i hj
      split at h
      · simp at h
      · simp at h
      · rename_i hc
        split at h
        · simp at h
        · rename_i vf hvf
          split at h
          · simp at h
          · rename_i md hmd
            split at h
            · rename_i title descr tags ht hd htg
              split at h
              · simp at h
              · rename_i up hup
                have hfu : App.final_upload wfs wid isJson now =
                    (App.UploadResult.uploaded,
                     dictSet wfs wid { wf with steps := dictSet wf.steps "upload" (App.StepState.mk "uploaded" (some (App.StepData.mk none (some title) (some descr) none (some "dQw4w9WgXcQ") (some "https://youtube.com/watch?v=dQw4w9WgXcQ") (some now))) up.completed_at) }) := by
                  simp only [App.final_upload, hwf, hc, hvf, hmd, ht, hd, htg, hup]
                  rw [if_neg hj]
                rw [hfu]
                exact ⟨_, _, _, dictGet_dictSet_self _ _ _,
                       dictGet_dictSet_self _ _ _, rfl, rfl, rfl, rfl⟩
            · simp at h

/-- C2 (witness): on a workflow whose `metadata` step is only
`completed` the route fails naming `metadata` (even with `research`,
`script`, `video` approved) and the registry is unchanged; on a workflow
with all four gating steps approved it succeeds and stores the publish
result on the `upload` step. -/
theorem final_upload_gating_witness :
    App.final_upload [("w", wfMetaCompleted)] "w" true "now"
      = (App.UploadResult.stepNotApproved "metadata", [("w", wfMetaCompleted)]) ∧
    ∃ wf2 up d,
      dictGet (App.final_upload [("w", wfAllApproved)] "w" true "now").2 "w" = some wf2 ∧
      dictGet wf2.steps "upload" = some up ∧ up.status = "uploaded" ∧
      up.data = some d ∧ d.video_id = some "dQw4w9WgXcQ" ∧
      d.uploaded_at = some "now" := by
  constructor
  · refine (final_upload_gating [("w", wfMetaCompleted)] "w" true "now" wfMetaCompleted rfl).2.1
      ["research", "script"] ["video"] "metadata"
      ⟨"completed", some mdPayload, some "t3"⟩ rfl ?_ rfl (by decide) rfl
    intro p hp
    simp at hp
    rcases hp with rfl | rfl
    · exact ⟨_, rfl, rfl⟩
    · exact ⟨_, rfl, rfl⟩
  · exact (final_upload_gating [("w", wfAllApproved)] "w" true "now" wfAllApproved rfl).2.2 rfl

/-! ## C4 — save/lookup round trip -/

/-- C4 (counterexample): the round trip does not hold on every backend.
On the S3+Postgres backend the insert is `ON CONFLICT (id) DO NOTHING`:
when the table already holds a row under the derived id, `save_video`
returns a fresh record for the 4-byte payload, but `get_video_info` on
that record's id yields the stale old row with `file_size = 3`.  On the
Supabase backend a failed metadata insert makes `save_video` return a
local record whose id then looks up nothing. -/
theorem s3_supabase_roundtrip_fails :
    (S3PostgresStorage.save_video s3WithRow [0, 0, 0, 0] "Cats" 10 tsNoon "u").1.file_size
      = 4 ∧
    (S3PostgresStorage.get_video_info
        (S3PostgresStorage.save_video s3WithRow [0, 0, 0, 0] "Cats" 10 tsNoon "u").2
        (S3PostgresStorage.save_video s3WithRow [0, 0, 0, 0] "Cats" 10 tsNoon "u").1.id).map
      VideoRecord.file_size = some 3 ∧
    ((SupabaseStorage.save_video supaEmpty [0] "Cats" 10 tsNoon "i" true true).toOption.map
      (fun r => SupabaseStorage.get_video_info r.2 r.1.id)) = some none := by
  refine ⟨rfl, ?_, ?_⟩ <;> decide

/-- C4 (amended): the round trip (`get_video_info` of the returned id
yields the returned record, with `file_size = len(bytes)` and the given
topic) holds unconditionally on the filesystem and SQLite backends.  On
the S3+Postgres backend it holds exactly when no row with the derived id
pre-exists; on an id conflict the table keeps the old row
(`ON CONFLICT DO NOTHING`), so the returned id looks up the stale
record.  On the Supabase backend it holds when the upload and the
metadata insert succeed; a failed insert leaves the remote table
untouched (the method still returns a local record), and a failed
upload raises. -/
theorem save_video_roundtrip_per_backend :
    ∀ (s : VideoStorage.State) (q : SQLiteStorage.State) (p : S3PostgresStorage.State)
      (u : SupabaseStorage.State) (b : Bytes) (topic : String)
      (d : Rat) (now : Timestamp) (i1 i2 i3 i4 : String) (insertFails : Bool),
      (VideoStorage.get_video_info (VideoStorage.save_video s b topic d now i1).2
          (VideoStorage.save_video s b topic d now i1).1.id
        = some (VideoStorage.save_video s b topic d now i1).1 ∧
       (VideoStorage.save_video s b topic d now i1).1.file_size = b.length ∧
       (VideoStorage.save_video s b topic d now i1).1.topic = topic) ∧
      (SQLiteStorage.get_video_info (SQLiteStorage.save_video q b topic d now i2).2
          (SQLiteStorage.save_video q b topic d now i2).1.id
        = some (SQLiteStorage.save_video q b topic d now i2).1 ∧
       (SQLiteStorage.save_video q b topic d now i2).1.file_size = b.length ∧
       (SQLiteStorage.save_video q b topic d now i2).1.topic = topic) ∧
      (dictGet p.rows (strftimeSecond now) = none →
       S3PostgresStorage.get_video_info (S3PostgresStorage.save_video p b topic d now i3).2
           (S3PostgresStorage.save_video p b topic d now i3).1.id
         = some (S3PostgresStorage.save_video p b topic d now i3).1 ∧
       (S3PostgresStorage.save_video p b topic d now i3).1.file_size = b.length ∧
       (S3PostgresStorage.save_video p b topic d now i3).1.topic = topic) ∧
      (∀ old, dictGet p.rows (strftimeSecond now) = some old →
       (S3PostgresStorage.save_video p b topic d now i3).2.rows = p.rows ∧
       S3PostgresStorage.get_video_info (S3PostgresStorage.save_video p b topic d now i3).2
           (S3PostgresStorage.save_video p b topic d now i3).1.id
         = some old) ∧
      (∀ rec s2, SupabaseStorage.save_video u b topic d now i4 true false
           = Except.ok (rec, s2) →
       SupabaseStorage.get_video_info s2 rec.id = some rec ∧
       rec.file_size = b.length ∧ rec.topic = topic) ∧
      (∀ rec s2, SupabaseStorage.save_video u b topic d now i4 true true
           = Except.ok (rec, s2) →
       s2.rows = u.rows) ∧
      SupabaseStorage.save_video u b topic d now i4 false insertFails
        = Except.error () := by
  intro s q p u b topic d now i1 i2 i3 i4 insertFails
  refine ⟨⟨?_, rfl, rfl⟩, ⟨?_, rfl, rfl⟩, ?_, ?_, ?_, ?_, rfl⟩
  · exact dictGet_dictSet_self _ _ _
  · exact dictGet_dictSet_self _ _ _
  · intro hnone
    simp only [S3PostgresStorage.save_video, S3PostgresStorage.get_video_info, hnone]
    refine ⟨dictGet_dictSet_self _ _ _, by trivial, by trivial⟩
  · intro old hold
    simp only [S3PostgresStorage.save_video, S3PostgresStorage.get_video_info, hold]
    exact ⟨by trivial, by trivial⟩
  · intro rec s2 h
    simp only [SupabaseStorage.save_video, Bool.not_true, Bool.false_eq_true, if_false,
               ite_false, Except.ok.injEq, Prod.mk.injEq] at h
    obtain ⟨hrec, hs2⟩ := h
    subst hrec
    subst hs2
    refine ⟨?_, rfl, rfl⟩
    exact dictGet_dictSet_self _ _ _
  · intro rec s2 h
    simp only [SupabaseStorage.save_video, Bool.not_true, Bool.false_eq_true, if_false,
               ite_false, if_true, Except.ok.injEq, Prod.mk.injEq] at h
    obtain ⟨hrec, hs2⟩ := h
    subst hs2
    rfl

/-! ## C9 — `status` and `playable` are unconditional -/

/-- C9: for every input byte string (empty included) and both backends,
the record returned by `save_video` has `status = 'completed'` and
`playable = True`; both fields are constants of the record literal, not
computed from the bytes. -/
theorem save_video_status_playable_unconditional :
    ∀ (s : VideoStorage.State) (q : SQLiteStorage.State) (b : Bytes) (topic : String)
      (d : Rat) (now : Timestamp) (iso iso2 : String),
      (VideoStorage.save_video s b topic d now iso).1.status = "completed" ∧
      (VideoStorage.save_video s b topic d now iso).1.playable = true ∧
      (SQLiteStorage.save_video q b topic d now iso2).1.status = "completed" ∧
      (SQLiteStorage.save_video q b topic d now iso2).1.playable = true := by
  intro s q b topic d now iso iso2
  exact ⟨rfl, rfl, rfl, rfl⟩

/-! ## C10 — `get_video_file` never returns a dangling path -/

/-- C10: on both backends `get_video_file` returns a path only when a
metadata record exists and the file at its `filepath` actually exists;
when the record exists but the file was removed out-of-band it returns
`None`. -/
theorem get_video_file_not_dangling :
    ∀ (s : VideoStorage.State) (q : SQLiteStorage.State) (video_id : String),
      (∀ p, VideoStorage.get_video_file s video_id = some p →
         ∃ info, VideoStorage.get_video_info s video_id = some info ∧
           info.filepath = p ∧ VideoStorage.fileExists s p = true) ∧
      (∀ info, VideoStorage.get_video_info s video_id = some info →
         VideoStorage.fileExists s info.filepath = false →
         VideoStorage.get_video_file s video_id = none) ∧
      (∀ p, SQLiteStorage.get_video_file q video_id = some p →
         ∃ info, SQLiteStorage.get_video_info q video_id = some info ∧
           info.filepath = p ∧ SQLiteStorage.fileExists q p = true) ∧
      (∀ info, SQLiteStorage.get_video_info q video_id = some info →
         SQLiteStorage.fileExists q info.filepath = false →
         SQLiteStorage.get_video_file q video_id = none) := by
  intro s q video_id
  refine ⟨?_, ?_, ?_, ?_⟩
  · intro p hp
    unfold VideoStorage.get_video_file at hp
    split at hp
    · rename_i info hinfo
      split at hp
      · rename_i hex
        cases hp
        exact ⟨info, hinfo, rfl, hex⟩
      · cases hp
    · cases hp
  · intro info hinfo hex
    unfold VideoStorage.get_video_file
    rw [hinfo]
    simp [hex]
  · intro p hp
    unfold SQLiteStorage.get_video_file at hp
    split at hp
    · rename_i info hinfo
      split at hp
      · rename_i hex
        cases hp
        exact ⟨info, hinfo, rfl, hex⟩
      · cases hp
    · cases hp
  · intro info hinfo hex
    unfold SQLiteStorage.get_video_file
    rw [hinfo]
    simp [hex]

/-- C10 (witness): the no-dangling-path theorem applied to a record
whose file exists and to records whose files were removed out-of-band. -/
theorem get_video_file_not_dangling_witness :
    (∃ info, VideoStorage.get_video_info fsWithFile "20250102_120000" = some info ∧
       info.filepath = "output/videos/Cats_20250102_120000.mp4" ∧
       VideoStorage.fileExists fsWithFile "output/videos/Cats_20250102_120000.mp4" = true) ∧
    VideoStorage.get_video_file fsNoFile "20250102_120000" = none ∧
    SQLiteStorage.get_video_file sqNoFile "20250102_120000" = none := by
  refine ⟨?_, ?_, ?_⟩
  · exact (get_video_file_not_dangling fsWithFile sqWithFile "20250102_120000").1
      "output/videos/Cats_20250102_120000.mp4" rfl
  · exact (get_video_file_not_dangling fsNoFile sqNoFile "20250102_120000").2.1 recV1 rfl rfl
  · exact (get_video_file_not_dangling fsNoFile sqNoFile "20250102_120000").2.2.2 recV1 rfl rfl

/-! ## C5 — `delete_video` semantics -/

/-- C5 (counterexample): `fsNoFile` stores a record for the id, yet
`delete_video` returns `False` and leaves the metadata record in place —
a subsequent `get_video_info` still returns the record, refuting the
claim that on a stored id both the object and the metadata record are
removed and `get_video_info` then returns none. -/
theorem delete_video_keeps_record_when_file_missing :
    VideoStorage.get_video_info fsNoFile "20250102_120000" = some recV1 ∧
    VideoStorage.delete_video fsNoFile "20250102_120000" = (false, fsNoFile) ∧
    VideoStorage.get_video_info
      (VideoStorage.delete_video fsNoFile "20250102_120000").2 "20250102_120000"
      = some recV1 :=
  ⟨rfl, rfl, rfl⟩

/-- C5 (amended): on both backends an unknown id yields `False` with no
mutation.  On the filesystem backend deletion succeeds — removing file
and metadata so `get_video_info` then returns none — only when the
record exists *and* its file exists on disk; a stored record whose file
is missing yields `False` and the metadata record is kept.  On the
SQLite backend any stored id has its row deleted and returns `True`
unconditionally, the file removal being best-effort (exceptions
swallowed), so `True` does not imply the object was removed. -/
theorem delete_video_semantics :
    ∀ (s : VideoStorage.State) (q : SQLiteStorage.State) (video_id : String)
      (removeRaises : Bool),
      (VideoStorage.get_video_info s video_id = none →
         VideoStorage.delete_video s video_id = (false, s)) ∧
      (∀ info, VideoStorage.get_video_info s video_id = some info →
         VideoStorage.fileExists s info.filepath = true →
         (VideoStorage.delete_video s video_id).1 = true ∧
         VideoStorage.get_video_info (VideoStorage.delete_video s video_id).2 video_id
           = none ∧
         VideoStorage.fileExists (VideoStorage.delete_video s video_id).2 info.filepath
           = false) ∧
      (∀ info, VideoStorage.get_video_info s video_id = some info →
         VideoStorage.fileExists s info.filepath = false →
         VideoStorage.delete_video s video_id = (false, s)) ∧
      (SQLiteStorage.get_video_info q video_id = none →
         SQLiteStorage.delete_video q video_id removeRaises = (false, q)) ∧
      (∀ info, SQLiteStorage.get_video_info q video_id = some info →
         (SQLiteStorage.delete_video q video_id removeRaises).1 = true ∧
         SQLiteStorage.get_video_info
           (SQLiteStorage.delete_video q video_id removeRaises).2 video_id = none) := by
  intro s q video_id removeRaises
  refine ⟨?_, ?_, ?_, ?_, ?_⟩
  · intro h
    simp [VideoStorage.delete_video, h]
  · intro info hinfo hex
    refine ⟨?_, ?_, ?_⟩
    · simp [VideoStorage.delete_video, hinfo, hex]
    · simp only [VideoStorage.delete_video, hinfo, hex, if_true]
      exact dictGet_dictDel_self _ _
    · simp only [VideoStorage.delete_video, hinfo, hex, if_true]
      show (dictGet (dictDel s.fs info.filepath) info.filepath).isSome = false
      rw [dictGet_dictDel_self]
      rfl
  · intro info hinfo hex
    simp [VideoStorage.delete_video, hinfo, hex]
  · intro h
    simp [SQLiteStorage.delete_video, h]
  · intro info hinfo
    refine ⟨?_, ?_⟩
    · simp [SQLiteStorage.delete_video, hinfo]
    · simp only [SQLiteStorage.delete_video, hinfo]
      exact dictGet_dictDel_self _ _

/-- C5 (witness): the amended deletion semantics applied to concrete
states — successful full deletion, unknown id, and SQLite deletion. -/
theorem delete_video_semantics_witness :
    (VideoStorage.delete_video fsWithFile "20250102_120000").1 = true ∧
    VideoStorage.get_video_info
      (VideoStorage.delete_video fsWithFile "20250102_120000").2 "20250102_120000"
      = none ∧
    VideoStorage.delete_video fsEmpty "nope" = (false, fsEmpty) ∧
    (SQLiteStorage.delete_video sqWithFile "20250102_120000" true).1 = true ∧
    SQLiteStorage.get_video_info
      (SQLiteStorage.delete_video sqWithFile "20250102_120000" true).2 "20250102_120000"
      = none := by
  obtain ⟨h1, h2, -⟩ :=
    (delete_video_semantics fsWithFile sqWithFile "20250102_120000" true).2.1 recV1 rfl rfl
  obtain ⟨h4, h5⟩ :=
    (delete_video_semantics fsWithFile sqWithFile "20250102_120000" true).2.2.2.2 recV1 rfl
  exact ⟨h1, h2, (delete_video_semantics fsEmpty sqWithFile "nope" true).1 rfl, h4, h5⟩

/-! ## C7 — filename sanitization -/

theorem digitChar_isDigit (n : Nat) : (digitChar n).isDigit = true := by
  match n with
  | 0 | 1 | 2 | 3 | 4 | 5 | 6 | 7 | 8 => rfl
  | _ + 9 => rfl

theorem natDigitsFuel_isDigit (fuel : Nat) :
    ∀ n, ∀ c ∈ natDigitsFuel fuel n, c.isDigit = true := by
  induction fuel with
  | zero =>
      intro n c hc
      simp only [natDigitsFuel, List.mem_singleton] at hc
      subst hc
      exact digitChar_isDigit n
  | succ fuel ih =>
      intro n c hc
      unfold natDigitsFuel at hc
      split at hc
      · rcases List.mem_singleton.mp hc with rfl
        exact digitChar_isDigit n
      · rw [List.mem_append] at hc
        rcases hc with hc | hc
        · exact ih (n / 10) c hc
        · rcases List.mem_singleton.mp hc with rfl
          exact digitChar_isDigit (n % 10)

theorem natDigits_isDigit (n : Nat) : ∀ c ∈ natDigits n, c.isDigit = true :=
  natDigitsFuel_isDigit n n

theorem pad2_isDigit (n : Nat) : ∀ c ∈ pad2 n, c.isDigit = true := by
  unfold pad2
  split
  · intro c hc
    rcases List.mem_cons.mp hc with rfl | hc
    · rfl
    · exact natDigits_isDigit n c hc
  · exact natDigits_isDigit n

theorem pad4_isDigit (n : Nat) : ∀ c ∈ pad4 n, c.isDigit = true := by
  unfold pad4
  split
  · intro c hc
    rcases List.mem_cons.mp hc with rfl | hc
    · rfl
    rcases List.mem_cons.mp hc with rfl | hc
    · rfl
    rcases List.mem_cons.mp hc with rfl | hc
    · rfl
    · exact natDigits_isDigit n c hc
  · split
    · intro c hc
      rcases List.mem_cons.mp hc with rfl | hc
      · rfl
      rcases List.mem_cons.mp hc with rfl | hc
      · rfl
      · exact natDigits_isDigit n c hc
    · split
      · intro c hc
        rcases List.mem_cons.mp hc with rfl | hc
        · rfl
        · exact natDigits_isDigit n c hc
      · exact natDigits_isDigit n

theorem isSafeChar_of_isDigit (c : Char) (h : c.isDigit = true) : isSafeChar c = true := by
  simp [isSafeChar, Char.isAlphanum, h]

/-- Every character of the second-resolution timestamp string is a digit
or the underscore separator, hence safe. -/
theorem strftimeSecond_safe (t : Timestamp) :
    ∀ c ∈ (strftimeSecond t).data, isSafeChar c = true := by
  intro c hc
  simp only [strftimeSecond, List.mem_append, List.mem_singleton] at hc
  rcases hc with ((((((h1 | h2) | h3) | h4) | h5) | h6) | h7)
  · exact isSafeChar_of_isDigit c (pad4_isDigit t.year c h1)
  · exact isSafeChar_of_isDigit c (pad2_isDigit t.month c h2)
  · exact isSafeChar_of_isDigit c (pad2_isDigit t.day c h3)
  · subst h4; rfl
  · exact isSafeChar_of_isDigit c (pad2_isDigit t.hour c h5)
  · exact isSafeChar_of_isDigit c (pad2_isDigit t.minute c h6)
  · exact isSafeChar_of_isDigit c (pad2_isDigit t.second c h7)

/-- C7 (counterexample): the filename built for topic `"A/B: Test?"`
contains the dot of the fixed `.mp4` extension, which is neither
alphanumeric nor a hyphen, underscore or space — refuting the claim that
the filename contains only those characters. -/
theorem videoFilename_contains_dot :
    '.' ∈ (videoFilename "A/B: Test?" tsNoon).data ∧ isSafeChar '.' = false := by
  constructor
  · decide
  · decide

/-- C7 (amended): the filename is a stem followed by the fixed `.mp4`
extension; every stem character is alphanumeric, hyphen, underscore or
space (so the extension's dot is the only punctuation), the sanitized
topic part is truncated to at most 30 characters, and the filename
contains no path separator. -/
theorem videoFilename_safe_stem (topic : String) (now : Timestamp) :
    videoFilename topic now
      = (sanitizeTopic topic ++ "_" ++ strftimeSecond now) ++ ".mp4" ∧
    (∀ c ∈ (sanitizeTopic topic ++ "_" ++ strftimeSecond now).data, isSafeChar c = true) ∧
    (sanitizeTopic topic).length ≤ 30 ∧
    (∀ c ∈ (videoFilename topic now).data, c ≠ '/' ∧ c ≠ '\\') := by
  have hstem : ∀ c ∈ (sanitizeTopic topic ++ "_" ++ strftimeSecond now).data,
      isSafeChar c = true := by
    intro c hc
    simp only [String.data_append] at hc
    rcases List.mem_append.mp hc with hc | hc
    · rcases List.mem_append.mp hc with hc | hc
      · simp only [sanitizeTopic] at hc
        exact (List.mem_filter.mp hc).2
      · simp only [show ("_" : String).data = ['_'] from rfl, List.mem_singleton] at hc
        subst hc
        rfl
    · exact strftimeSecond_safe now c hc
  refine ⟨rfl, hstem, ?_, ?_⟩
  · have h1 : (sanitizeTopic topic).length
        = ((topic.toList.take 30).filter isSafeChar).length := rfl
    rw [h1]
    exact le_trans (List.length_filter_le _ _) (List.length_take_le _ _)
  · intro c hc
    have hne : ∀ d : Char, isSafeChar d = true → d ≠ '/' ∧ d ≠ '\\' := by
      intro d hd
      constructor
      · rintro rfl
        exact absurd hd (by decide)
      · rintro rfl
        exact absurd hd (by decide)
    have hfn : (videoFilename topic now).data
        = (sanitizeTopic topic ++ "_" ++ strftimeSecond now).data ++ (".mp4" : String).data := by
      simp [videoFilename, String.data_append]
    rw [hfn] at hc
    rcases List.mem_append.mp hc with hc | hc
    · exact hne c (hstem c hc)
    · simp only [show (".mp4" : String).data = ['.', 'm', 'p', '4'] from rfl,
                 List.mem_cons, List.mem_singleton] at hc
      rcases hc with rfl | rfl | rfl | rfl | hfalse
      · exact ⟨by decide, by decide⟩
      · exact ⟨by decide, by decide⟩
      · exact ⟨by decide, by decide⟩
      · exact ⟨by decide, by decide⟩
      · simp at hfalse

/-- C7 (witness): the amended theorem instantiated at the spec's example
topic, applied to two concrete characters of the produced filename. -/
theorem videoFilename_safe_stem_witness :
    isSafeChar 'T' = true ∧ ('.' ≠ '/' ∧ '.' ≠ '\\') :=
  ⟨(videoFilename_safe_stem "A/B: Test?" tsNoon).2.1 'T' (by decide),
   (videoFilename_safe_stem "A/B: Test?" tsNoon).2.2.2 '.' (by decide)⟩

/-! ## C8 — id derivation under same-second saves -/

/-- C8 (counterexample): two `save_video` calls with the same topic at
two distinct instants within the same wall-clock second produce the
*same* id and the same filename (the id is the second-resolution
timestamp, with no sub-second or sequence disambiguation), and the
second record replaces the first: after both saves the metadata holds a
single entry whose `file_size` is the second payload's length. -/
theorem save_video_same_second_collision :
    tsNoon ≠ tsNoonLater ∧
    (VideoStorage.save_video fsEmpty [0, 1] "Cats" 10 tsNoon "i1").1.id
      = (VideoStorage.save_video fsEmpty [0, 1, 2] "Cats" 10 tsNoonLater "i2").1.id ∧
    (VideoStorage.save_video fsEmpty [0, 1] "Cats" 10 tsNoon "i1").1.filename
      = (VideoStorage.save_video fsEmpty [0, 1, 2] "Cats" 10 tsNoonLater "i2").1.filename ∧
    ((VideoStorage.save_video
        (VideoStorage.save_video fsEmpty [0, 1] "Cats" 10 tsNoon "i1").2
        [0, 1, 2] "Cats" 10 tsNoonLater "i2").2.metadata.map Prod.fst)
      = ["20250102_120000"] ∧
    (VideoStorage.get_video_info
        (VideoStorage.save_video
          (VideoStorage.save_video fsEmpty [0, 1] "Cats" 10 tsNoon "i1").2
          [0, 1, 2] "Cats" 10 tsNoonLater "i2").2
        "20250102_120000").map VideoRecord.file_size = some 3 := by
  refine ⟨by decide, ?_, ?_, ?_, ?_⟩ <;> decide

/-- C8 (amended): when two `save_video` calls happen within the same
wall-clock second (all `strftime`-printed fields equal, microseconds
free), the derived ids and filenames are identical on both backends, and
the second call's metadata record replaces the first (plain dict
assignment on the filesystem backend, `INSERT OR REPLACE` on SQLite), so
the first record is lost rather than disambiguated. -/
theorem save_video_same_second_same_id
    (s : VideoStorage.State) (q : SQLiteStorage.State) (b1 b2 : Bytes) (topic : String)
    (d1 d2 : Rat) (t1 t2 : Timestamp) (i1 i2 i3 i4 : String)
    (h : sameSecond t1 t2) :
    (VideoStorage.save_video s b1 topic d1 t1 i1).1.id
      = (VideoStorage.save_video s b2 topic d2 t2 i2).1.id ∧
    (VideoStorage.save_video s b1 topic d1 t1 i1).1.filename
      = (VideoStorage.save_video s b2 topic d2 t2 i2).1.filename ∧
    (SQLiteStorage.save_video q b1 topic d1 t1 i3).1.id
      = (SQLiteStorage.save_video q b2 topic d2 t2 i4).1.id ∧
    VideoStorage.get_video_info
        (VideoStorage.save_video (VideoStorage.save_video s b1 topic d1 t1 i1).2
          b2 topic d2 t2 i2).2
        (VideoStorage.save_video s b1 topic d1 t1 i1).1.id
      = some (VideoStorage.save_video (VideoStorage.save_video s b1 topic d1 t1 i1).2
          b2 topic d2 t2 i2).1 ∧
    SQLiteStorage.get_video_info
        (SQLiteStorage.save_video (SQLiteStorage.save_video q b1 topic d1 t1 i3).2
          b2 topic d2 t2 i4).2
        (SQLiteStorage.save_video q b1 topic d1 t1 i3).1.id
      = some (SQLiteStorage.save_video (SQLiteStorage.save_video q b1 topic d1 t1 i3).2
          b2 topic d2 t2 i4).1 := by
  obtain ⟨h1, h2, h3, h4, h5, h6⟩ := h
  have hs : strftimeSecond t1 = strftimeSecond t2 := by
    simp [strftimeSecond, h1, h2, h3, h4, h5, h6]
  refine ⟨?_, ?_, ?_, ?_, ?_⟩
  · show strftimeSecond t1 = strftimeSecond t2
    exact hs
  · show videoFilename topic t1 = videoFilename topic t2
    unfold videoFilename
    rw [hs]
  · show strftimeSecond t1 = strftimeSecond t2
    exact hs
  · simp only [VideoStorage.get_video_info, VideoStorage.save_video]
    rw [hs]
    exact dictGet_dictSet_self _ _ _
  · simp only [SQLiteStorage.get_video_info, SQLiteStorage.save_video]
    rw [hs]
    exact dictGet_dictSet_self _ _ _

/-- C8 (witness): the amended theorem applied to two concrete readings
half a second apart. -/
theorem save_video_same_second_same_id_witness :
    (VideoStorage.save_video fsEmpty [0, 1] "Cats" 10 tsNoon "i1").1.id
      = (VideoStorage.save_video fsEmpty [0, 1, 2] "Cats" 10 tsNoonLater "i2").1.id ∧
    (SQLiteStorage.save_video sqNoFile [0, 1] "Cats" 10 tsNoon "i3").1.id
      = (SQLiteStorage.save_video sqNoFile [0, 1, 2] "Cats" 10 tsNoonLater "i4").1.id := by
  obtain ⟨ha, -, hb, -⟩ :=
    save_video_same_second_same_id fsEmpty sqNoFile [0, 1] [0, 1, 2] "Cats" 10 10
      tsNoon tsNoonLater "i1" "i2" "i3" "i4" ⟨rfl, rfl, rfl, rfl, rfl, rfl⟩
  exact ⟨ha, hb⟩

/-! ## C6 — backend selection falls back locally and never raises -/

/-- C6: when none of the remote backend configurations (Firebase, S3 +
Postgres, Supabase) is present in the environment, `get_video_storage`
returns the SQLite backend or the filesystem backend and never raises:
whatever the SQLite factory does (instance, `None`, or an exception —
the only constructor call wrapped in `try` on this path), selection
falls through to the always-available filesystem fallback. -/
theorem select_backend_local_fallback
    (env : Env) (oc : Outcomes)
    (hfb : (env.firebaseImport && env.firebaseBucket) = false)
    (hs3 : (env.s3Import && env.awsBucket && env.databaseUrl) = false)
    (hsb : (env.supabaseImport && env.supabaseUrl && env.supabaseKey) = false) :
    get_video_storage env oc = Except.ok Backend.sqlite ∨
    get_video_storage env oc = Except.ok Backend.filesystem := by
  cases hsq : env.sqliteImport <;> cases hos : oc.sqlite <;>
    simp [get_video_storage, selectAfterFirebase, selectAfterS3, selectAfterSupabase,
          hfb, hs3, hsb, hsq, hos]

/-- C6 (witness): the fallback theorem on a concrete environment with no
remote configuration and an SQLite factory that raises. -/
theorem select_backend_local_fallback_witness :
    get_video_storage ⟨false, false, false, true, false, false, false, false, false⟩
        ⟨CtorOutcome.raises, CtorOutcome.raises, CtorOutcome.raises, CtorOutcome.raises⟩
      = Except.ok Backend.sqlite ∨
    get_video_storage ⟨false, false, false, true, false, false, false, false, false⟩
        ⟨CtorOutcome.raises, CtorOutcome.raises, CtorOutcome.raises, CtorOutcome.raises⟩
      = Except.ok Backend.filesystem :=
  select_backend_local_fallback _ _ rfl rfl rfl

/-- C4 (witness): the per-backend round-trip theorem applied to concrete
states — a conflict-free S3 save round-trips, a same-id S3 save leaves
the table unchanged, and a failed Supabase upload raises. -/
theorem save_video_roundtrip_per_backend_witness :
    S3PostgresStorage.get_video_info
        (S3PostgresStorage.save_video s3Empty [0, 1, 2] "Cats" 10 tsNoon "i3").2
        (S3PostgresStorage.save_video s3Empty [0, 1, 2] "Cats" 10 tsNoon "i3").1.id
      = some (S3PostgresStorage.save_video s3Empty [0, 1, 2] "Cats" 10 tsNoon "i3").1 ∧
    (S3PostgresStorage.save_video s3WithRow [0, 1, 2] "Cats" 10 tsNoon "i3").2.rows
      = s3WithRow.rows ∧
    SupabaseStorage.save_video supaEmpty [0] "Cats" 10 tsNoon "i4" false true
      = Except.error () := by
  refine ⟨?_, ?_, ?_⟩
  · exact ((save_video_roundtrip_per_backend fsEmpty sqNoFile s3Empty supaEmpty
      [0, 1, 2] "Cats" 10 tsNoon "i1" "i2" "i3" "i4" true).2.2.1 rfl).1
  · exact ((save_video_roundtrip_per_backend fsEmpty sqNoFile s3WithRow supaEmpty
      [0, 1, 2] "Cats" 10 tsNoon "i1" "i2" "i3" "i4" true).2.2.2.1 recV1 rfl).1
  · exact (save_video_roundtrip_per_backend fsEmpty sqNoFile s3Empty supaEmpty
      [0] "Cats" 10 tsNoon "i1" "i2" "i3" "i4" true).2.2.2.2.2.2
